import Mathlib

/-!
Verification development for the music-shuttle prefetch/cache engine.

Shallow embedding of:
  * `src/lib/hooks/useAudioCache.ts`    (Persistent Cache Store wrapper)
  * `src/lib/hooks/useAudioPrefetch.ts` (In-Flight Request Registry + Retrying Fetcher)
  * `src/lib/utils.ts`                  (`swapAudioSource`, `revokeBlobUrl`)
  * `src/components/player/MusicPlayer.tsx` (`playTrack`, `playNext`)

Binary blobs are modelled as opaque `String` identifiers; JavaScript
exceptions are modelled with `Except JsError`; the single-threaded
event-loop concurrency of the browser is modelled as a small-step
trace semantics whose atomic steps are the synchronous (await-free)
code sections of the source.
-/

namespace MusicShuttle

/-- Errors a JavaScript expression of the core can throw: an HTTP
non-ok status turned into `throw new Error`, a rejected `fetch`, an
`AbortSignal.timeout` abort, or a failure of the host cache facility. -/
inductive JsError where
  | http (status : Nat)
  | net
  | timeout
  | hostError
deriving DecidableEq, Repr

/-- UTF-8 bytes of a character (mirrors the encoder JavaScript engines
use inside `encodeURIComponent`). -/
def utf8BytesOf (c : Char) : List Nat :=
  let n := c.toNat
  if n < 128 then [n]
  else if n < 2048 then [192 + n / 64, 128 + n % 64]
  else if n < 65536 then [224 + n / 4096, 128 + (n / 64) % 64, 128 + n % 64]
  else [240 + n / 262144, 128 + (n / 4096) % 64, 128 + (n / 64) % 64, 128 + n % 64]

/-- The bytes `encodeURIComponent` leaves unescaped:
`A-Z a-z 0-9 - _ . ! ~ * ' ( )`. -/
def isUnreservedByte (b : Nat) : Bool :=
  (65 ≤ b && b ≤ 90) || (97 ≤ b && b ≤ 122) || (48 ≤ b && b ≤ 57) ||
  b = 45 || b = 95 || b = 46 || b = 33 || b = 126 || b = 42 || b = 39 ||
  b = 40 || b = 41

/-- Hexadecimal digit character for `n < 16`, upper case as produced by
`encodeURIComponent`. -/
def hexDigitChar (n : Nat) : Char :=
  if n < 10 then Char.ofNat (48 + n) else Char.ofNat (55 + n)

/-- Percent-escape of one byte. -/
def pctByte (b : Nat) : String :=
  String.mk [Char.ofNat 37, hexDigitChar (b / 16), hexDigitChar (b % 16)]

/-- Model of JavaScript `encodeURIComponent`. -/
def encodeURIComponent (s : String) : String :=
  String.join (s.data.map fun c =>
    String.join ((utf8BytesOf c).map fun b =>
      if isUnreservedByte b then String.mk [Char.ofNat b] else pctByte b))

/-- Derived cache key / audio endpoint address for an item identifier,
from `useAudioCache.ts` line 26 and `MusicPlayer.tsx` line 260:
`/api/audio?key=${encodeURIComponent(key)}`. -/
def cacheKeyOf (key : String) : String :=
  "/api/audio?key=" ++ encodeURIComponent key

/-- `URL.createObjectURL` on a blob: produces a fresh `blob:` URL.
Blobs are opaque strings, so the handle is modelled as the blob id
behind a `blob:` scheme. -/
def mkBlobUrl (blob : String) : String :=
  "blob:" ++ blob

/-- Host cache facility (the browser Cache API) as seen by one call:
whether `caches` exists in `window`, and the settled outcome of each
facility operation the hooks await (each may reject, which surfaces as
a thrown error at the `await`). `matchResult` also absorbs the
`cached.blob()` read. -/
structure CacheHost where
  available : Bool
  openResult : Except JsError Unit
  matchResult : String → Except JsError (Option String)
  putResult : Except JsError Unit
  deleteResult : Except JsError Unit
  keysResult : Except JsError (List String)
  deleteCacheResult : Except JsError Unit

/-- `getCachedAudio` of `useAudioCache.ts` (lines 20-39): feature
check, then `caches.open` / `cache.match` inside try/catch; any throw
is caught and `null` is returned; a hit returns a fresh object URL. -/
def getCachedAudio (h : CacheHost) (key : String) : Except JsError (Option String) :=
  if !h.available then .ok none
  else
    match h.openResult with
    | .error _ => .ok none
    | .ok () =>
      match h.matchResult (cacheKeyOf key) with
      | .error _ => .ok none
      | .ok none => .ok none
      | .ok (some blob) => .ok (some (mkBlobUrl blob))

/-- `setCachedAudio` of `useAudioCache.ts` (lines 44-58): feature
check, `caches.open` / `cache.put` inside try/catch; every throw is
caught, so the call always completes. -/
def setCachedAudio (h : CacheHost) (key : String) (blob : String) : Except JsError Unit :=
  if !h.available then .ok ()
  else
    match h.openResult with
    | .error _ => .ok ()
    | .ok () =>
      match h.putResult with
      | .error _ => .ok ()
      | .ok () => .ok ()

/-- `removeCachedAudio` of `useAudioCache.ts` (lines 63-74): feature
check, `caches.open` / `cache.delete` inside try/catch. The unused
`blob` of the put path is absent here. -/
def removeCachedAudio (h : CacheHost) (key : String) : Except JsError Unit :=
  if !h.available then .ok ()
  else
    match h.openResult with
    | .error _ => .ok ()
    | .ok () =>
      match h.deleteResult with
      | .error _ => .ok ()
      | .ok () => .ok ()

/-- `clearAllCache` of `useAudioCache.ts` (lines 79-90): feature
check, `caches.keys`, then `caches.delete` on every name starting with
`music-shuttle` (the filter does not affect the error behaviour and is
absorbed into `deleteCacheResult`), all inside try/catch. -/
def clearAllCache (h : CacheHost) : Except JsError Unit :=
  if !h.available then .ok ()
  else
    match h.keysResult with
    | .error _ => .ok ()
    | .ok _ =>
      match h.deleteCacheResult with
      | .error _ => .ok ()
      | .ok () => .ok ()

/-- Retry priority of `prefetchFullAudio`. -/
inductive Priority where
  | high
  | low
deriving DecidableEq, Repr

/-- `useAudioPrefetch.ts` line 226: `priority === 'high' ? 2 : 0`. -/
def maxRetries : Priority → Nat
  | .high => 2
  | .low => 0

/-- `useAudioPrefetch.ts` line 228: `priority === 'high' ? 30000 : 60000`,
the per-attempt `AbortSignal.timeout` in milliseconds. -/
def timeoutMsOf : Priority → Nat
  | .high => 30000
  | .low => 60000

/-- `useAudioPrefetch.ts` line 227: `const baseDelay = 1000`. -/
def baseDelay : Nat := 1000

/-- Outcome of one `fetch(audioUrl, ...)` attempt as decided by the
network: a settled response with its status and body blob (a rejected
`blob()` read is folded into `netFail`), a rejected fetch, or an abort
by the per-attempt timeout signal. -/
inductive AttemptOutcome where
  | resp (status : Nat) (blob : String)
  | netFail
  | timedOut
deriving DecidableEq, Repr

/-- JavaScript `Response.ok`: status in the range 200-299. -/
def responseOk (status : Nat) : Bool :=
  200 ≤ status && status < 300

/-- The fetch-and-check part of one loop iteration
(`useAudioPrefetch.ts` lines 234-243): await the fetch, then
`if (!response.ok) throw new Error(...)`, then read the blob. -/
def attemptOnce (o : AttemptOutcome) : Except JsError String :=
  match o with
  | .resp status blob => if responseOk status then .ok blob else .error (.http status)
  | .netFail => .error .net
  | .timedOut => .error .timeout

/-- The whole `try` block of one loop iteration (`useAudioPrefetch.ts`
lines 231-250): fetch and check, `await setCachedAudio(key, blob)`,
then `return URL.createObjectURL(blob)`. -/
def tryBody (h : CacheHost) (key : String) (o : AttemptOutcome) : Except JsError String :=
  match attemptOnce o with
  | .error e => .error e
  | .ok blob =>
    match setCachedAudio h key blob with
    | .error e => .error e
    | .ok () => .ok (mkBlobUrl blob)

/-- Observable record of a run of the retry loop: the settled value of
the async body (`.error` would mean an uncaught throw), the backoff
delays actually awaited, and the number of fetch attempts issued. -/
structure FetchRun where
  result : Except JsError (Option String)
  delays : List Nat
  attempts : Nat

/-- The retry loop of `useAudioPrefetch.ts` lines 230-267, run over the
list of attempt indices still to perform
(`for (let attempt = 0; attempt <= maxRetries; attempt++)` visits
`[0, 1, ..., maxRetries]`). The catch handler returns `null` when the
current attempt is the last one (`attempt === maxRetries`, i.e. no
indices remain) and otherwise awaits `baseDelay * Math.pow(2, attempt)`
before retrying; the `return null` after the loop is the nil case. -/
def fetchLoop (h : CacheHost) (key : String) (outcomes : Nat → AttemptOutcome) :
    List Nat → FetchRun
  | [] => ⟨.ok none, [], 0⟩
  | attempt :: rest =>
    match tryBody h key (outcomes attempt) with
    | .ok url => ⟨.ok (some url), [], 1⟩
    | .error _ =>
      match rest with
      | [] => ⟨.ok none, [], 1⟩
      | _ :: _ =>
        let d := baseDelay * 2 ^ attempt
        let r := fetchLoop h key outcomes rest
        ⟨r.result, d :: r.delays, r.attempts + 1⟩

/-- The async body created by `prefetchFullAudio` (`useAudioPrefetch.ts`
lines 217-268): cache check first, then on a miss the retry loop over
attempts `0..maxRetries`. -/
def prefetchRun (h : CacheHost) (key : String) (outcomes : Nat → AttemptOutcome)
    (p : Priority) : FetchRun :=
  match getCachedAudio h key with
  | .error e => ⟨.error e, [], 0⟩
  | .ok (some url) => ⟨.ok (some url), [], 0⟩
  | .ok none => fetchLoop h key outcomes (List.range (maxRetries p + 1))

/-- A host whose cache facility is absent, used to evaluate runs on
concrete inputs. -/
def bareHost : CacheHost where
  available := false
  openResult := .ok ()
  matchResult := fun _ => .ok none
  putResult := .ok ()
  deleteResult := .ok ()
  keysResult := .ok []
  deleteCacheResult := .ok ()

/-- Concrete network behaviour used to evaluate runs: a rejected fetch,
then a timeout, then a 200 response carrying blob `b`. -/
def demoOutcomes : Nat → AttemptOutcome
  | 0 => .netFail
  | 1 => .timedOut
  | _ => .resp 200 ("b")

/-- A host whose facility exists but whose every operation rejects. -/
def failingHost : CacheHost where
  available := true
  openResult := .error .hostError
  matchResult := fun _ => .error .hostError
  putResult := .error .hostError
  deleteResult := .error .hostError
  keysResult := .error .hostError
  deleteCacheResult := .error .hostError

/-- State of the In-Flight Request Registry
(`prefetchCacheRef.current : Map<string, Promise<string | null>>` in
`useAudioPrefetch.ts` line 116), in the single-threaded event-loop
model. Promises are named by allocation order (`nextOp`); `registry`
is the map, `created` records every promise ever created together
with its key (each created promise runs exactly one
cache-check-then-fetch chain, so one entry here is one network fetch
chain). -/
structure RegState where
  registry : List (String × Nat)
  nextOp : Nat
  created : List (String × Nat)
deriving DecidableEq, Repr

/-- `Map.prototype.get` on the registry association list. -/
def lookupReg : List (String × Nat) → String → Option Nat
  | [], _ => none
  | (k2, o) :: rest, k => if k2 = k then some o else lookupReg rest k

/-- Events of the event-loop trace. `call k` is one invocation of
`prefetchFullAudio(k, addr, priority)`: its whole synchronous section
— the duplicate check (line 210), the creation of the promise (line
217; the async body suspends at its first `await`, `getCachedAudio`,
before touching the registry) and the `Map.set` (line 271) — runs in
one turn with no suspension point, so it is one atomic step. `settle`
is the later settlement of a created promise with its result.
`clear` is `clearPrefetchCache` (lines 280-283), which empties the
map. -/
inductive RegEvent where
  | call (k : String)
  | settle (o : Nat) (r : Option String)
  | clear
deriving DecidableEq, Repr

/-- One atomic event-loop step; for a `call`, also the promise the
call returns (as the call log). The `settle` case mutates nothing:
`prefetchFullAudio` never deletes its key from the map when the
promise settles. -/
def regStep (s : RegState) : RegEvent → RegState × List (String × Nat)
  | .call k =>
    match lookupReg s.registry k with
    | some o => (s, [(k, o)])
    | none =>
      let o := s.nextOp
      ({ registry := (k, o) :: s.registry, nextOp := o + 1,
         created := (k, o) :: s.created }, [(k, o)])
  | .settle _ _ => (s, [])
  | .clear => ({ s with registry := [] }, [])

/-- Run a trace of events, accumulating the call log. -/
def runReg : RegState → List RegEvent → RegState × List (String × Nat)
  | s, [] => (s, [])
  | s, e :: es =>
    let p := regStep s e
    let q := runReg p.1 es
    (q.1, p.2 ++ q.2)

/-- The registry as the component mounts: an empty map. -/
def initReg : RegState := ⟨[], 0, []⟩

/-- The promise returned to each caller along a trace, keyed by the
identifier it asked for. -/
def callLog (es : List RegEvent) : List (String × Nat) :=
  (runReg initReg es).2

/-- How many fetch-chain promises a trace created for identifier `k`. -/
def createdFor (es : List RegEvent) (k : String) : Nat :=
  ((runReg initReg es).1.created.filter (fun p => p.1 = k)).length

/-- A three-caller trace: two concurrent calls for `a` around a call
for `b`, none of the promises settled yet. -/
def demoTrace : List RegEvent :=
  [.call ("a"), .call ("b"), .call ("a")]

/-- A trace in which the promise for `a` (promise 0) settles with
`null` and `a` is then requested again. -/
def settledTrace : List RegEvent :=
  [.call ("a"), .settle 0 none, .call ("a")]

/-- The registry state reached after the promise for `a` has settled
with `null`. -/
def settledState : RegState :=
  (runReg initReg [.call ("a"), .settle 0 none]).1

/-- Host media element state the core manipulates; playback time is a
rational standing in for the JavaScript double `currentTime`. -/
structure AudioEl where
  src : String
  currentTime : Rat
  paused : Bool
deriving DecidableEq, Repr

/-- A row of the server listing (`useMusicList.ts` interface `Track`). -/
structure Track where
  key : String
  size : Option Nat := none
  lastModified : Option String := none
deriving DecidableEq, Repr

/-- `Array.prototype.findIndex`, with `none` standing for `-1`. -/
def findIndex (p : Track → Bool) : List Track → Option Nat
  | [] => none
  | t :: ts => if p t then some 0 else (findIndex p ts).map (fun i => i + 1)

/-- `swapAudioSource` of `src/lib/utils.ts` lines 17-51: record whether
the element was playing, pause it, assign the new source and reload,
and in the `loadedmetadata` handler restore the playback position and,
if it was playing, resume. -/
def swapAudioSource (audio : AudioEl) (newUrl : String) (resumeTime : Rat) : AudioEl :=
  let wasPlaying := !audio.paused
  let a1 : AudioEl := { audio with paused := true }
  let a2 : AudioEl := { a1 with src := newUrl }
  let a3 : AudioEl := { a2 with currentTime := resumeTime }
  if wasPlaying then { a3 with paused := false } else a3

/-- Boolean prefix test on character lists, for the `blob:` check. -/
def listPrefixOf : List Char → List Char → Bool
  | [], _ => true
  | _ :: _, [] => false
  | a :: as, b :: bs => (a = b) && listPrefixOf as bs

/-- `url.startsWith('blob:')` of `revokeBlobUrl`. -/
def isBlobUrl (u : String) : Bool :=
  listPrefixOf ("blob:").data u.data

/-- `revokeBlobUrl` of `src/lib/utils.ts` lines 63-71 as its effect on
the ledger of revoked handles: only a non-null `blob:` URL is revoked
(`URL.revokeObjectURL` failures are caught and ignored). -/
def revokeBlobUrl (url : Option String) (revoked : List String) : List String :=
  match url with
  | some u => if isBlobUrl u then u :: revoked else revoked
  | none => revoked

/-- Player-visible state owned by `MusicPlayer`: the audio element,
`currentTrackIndex`, `currentBlobUrlRef.current`, plus the ledger of
every blob URL revoked so far (a revocation is an irreversible
external effect, so the ledger only grows). -/
structure PlayerState where
  audio : AudioEl
  currentTrackIndex : Option Nat
  currentBlobUrl : Option String
  revoked : List String
deriving DecidableEq, Repr

/-- Step 4 of `playTrack` (`MusicPlayer.tsx` lines 289-294): if the
3-second race returned a blob URL and the element still plays the
address the prefetch was started for, swap to it, revoke the
previously held blob URL and retain the new one; otherwise nothing
happens. -/
def earlySwapStep (st : PlayerState) (audioUrl : String) (blobUrl : Option String) :
    PlayerState :=
  match blobUrl with
  | none => st
  | some u =>
    if st.audio.src = audioUrl then
      { audio := swapAudioSource st.audio u st.audio.currentTime
        currentTrackIndex := st.currentTrackIndex
        currentBlobUrl := some u
        revoked := revokeBlobUrl st.currentBlobUrl st.revoked }
    else st

/-- Step 5 of `playTrack` (`MusicPlayer.tsx` lines 298-313): when the
low-priority continuation settles with `finalUrl`, swap only if the
element still plays the prefetched address, revoking the previously
held blob URL and retaining the new one; a null or stale result leaves
the state unchanged — in particular the stale branch revokes nothing. -/
def lateArrivalStep (st : PlayerState) (audioUrl : String) (finalUrl : Option String) :
    PlayerState :=
  match finalUrl with
  | none => st
  | some u =>
    if st.audio.src = audioUrl then
      { audio := swapAudioSource st.audio u st.audio.currentTime
        currentTrackIndex := st.currentTrackIndex
        currentBlobUrl := some u
        revoked := revokeBlobUrl st.currentBlobUrl st.revoked }
    else st

/-- Modelled from the spec: the `play(url, reload)` function of the
`useAudioPlayer` hook is not part of the repository snapshot (only its
call sites are); per spec section 4.4 step 2, selecting a source
begins playback of that address from the start. -/
def playEl (url : String) : AudioEl :=
  { src := url, currentTime := 0, paused := false }

/-- Externally observable operations a `playTrack` call can issue. -/
inductive Effect where
  | setIndex (i : Option Nat)
  | cacheRead (k : String)
  | playUrl (u : String)
  | startPrefetch (k : String) (p : Priority)
  | swapTo (u : String)
deriving DecidableEq, Repr

/-- Environment of one `playTrack` call: the settled value of the
cache lookup per key (`getCachedAudio` never throws), the value the
3-second `Promise.race` settles with (`none` both when the timer wins
and when the prefetch resolved `null`), and the settled value of the
low-priority background continuation. -/
structure PlayEnv where
  cached : String → Option String
  raceResult : Option String
  lateResult : Option String

/-- `playTrack` of `MusicPlayer.tsx` lines 251-318: guard on the
filtered view, record the full-list index, check the cache (a hit
plays the cached URL directly and ends the call), otherwise stream the
remote address at once, race the high-priority prefetch against the
3-second timer and swap on a win, else let the low-priority
continuation attempt the late swap. -/
def playTrack (tracks filtered : List Track) (index : Nat) (env : PlayEnv)
    (st : PlayerState) : PlayerState × List Effect :=
  match filtered.get? index with
  | none => (st, [])
  | some track =>
    let globalIndex := findIndex (fun t => t.key == track.key) tracks
    let st1 : PlayerState := { st with currentTrackIndex := globalIndex }
    let audioUrl := cacheKeyOf track.key
    match env.cached track.key with
    | some cachedUrl =>
      ({ st1 with
          audio := playEl cachedUrl
          revoked := revokeBlobUrl st1.currentBlobUrl st1.revoked
          currentBlobUrl := some cachedUrl },
       [.setIndex globalIndex, .cacheRead track.key, .playUrl cachedUrl])
    | none =>
      let st2 : PlayerState := { st1 with audio := playEl audioUrl }
      match env.raceResult with
      | some blobUrl =>
        (earlySwapStep st2 audioUrl (some blobUrl),
         [.setIndex globalIndex, .cacheRead track.key, .playUrl audioUrl,
          .startPrefetch track.key Priority.high, .swapTo blobUrl])
      | none =>
        (lateArrivalStep st2 audioUrl env.lateResult,
         [.setIndex globalIndex, .cacheRead track.key, .playUrl audioUrl,
          .startPrefetch track.key Priority.high,
          .startPrefetch track.key Priority.low])

/-- `filteredTracks.findIndex(t => t.key === chosen.key)` followed by
the `if (nextIndex < 0) nextIndex = 0` fallback of `playNext`. -/
def resolveInFiltered (filtered : List Track) (t : Track) : Nat :=
  match findIndex (fun t2 => t2.key == t.key) filtered with
  | some i => i
  | none => 0

/-- The index selection of `playNext` (`MusicPlayer.tsx` lines
327-357): nothing with an empty list; in shuffle mode the draw
`Math.floor(Math.random() * tracks.length)` ranges over the FULL list
(`randomDraw` is that value) and the drawn track's position in the
filtered view is used with fallback 0; in sequential mode the
full-list successor `(currentTrackIndex + 1) % tracks.length` is
resolved the same way (a null current index restarts at 0). -/
def playNextIndex (tracks filtered : List Track) (randomMode : Bool)
    (currentTrackIndex : Option Nat) (randomDraw : Nat) : Option Nat :=
  if tracks.length = 0 then none
  else if randomMode then
    match tracks.get? randomDraw with
    | some rt => some (resolveInFiltered filtered rt)
    | none => none
  else
    match currentTrackIndex with
    | none => some 0
    | some i =>
      match tracks.get? ((i + 1) % tracks.length) with
      | some nt => some (resolveInFiltered filtered nt)
      | none => none

/-- `playNext` (`MusicPlayer.tsx` lines 327-361) followed by its
`playTrack(nextIndex)` call. -/
def playNext (tracks filtered : List Track) (randomMode : Bool)
    (currentTrackIndex : Option Nat) (randomDraw : Nat) (env : PlayEnv)
    (st : PlayerState) : PlayerState × List Effect :=
  match playNextIndex tracks filtered randomMode currentTrackIndex randomDraw with
  | none => (st, [])
  | some j => playTrack tracks filtered j env st

/-- The resolution contract of the filtered view: the chosen filtered
index either points at a track bearing the chosen key, or is the
fallback 0 because the chosen track is filtered out. -/
def resolvesProperly (filtered : List Track) (t : Track) (j : Nat) : Prop :=
  (∃ hj : j < filtered.length, (filtered.get ⟨j, hj⟩).key = t.key) ∨
  (j = 0 ∧ ∀ t2 ∈ filtered, t2.key ≠ t.key)

/-- A three-track list with no active search filter. -/
def demoTracks : List Track :=
  [{ key := "s0" }, { key := "s1" }, { key := "s2" }]

/-- An environment with a cold cache, a lost race and no late result. -/
def idleEnv : PlayEnv := ⟨fun _ => none, none, none⟩

/-- A quiescent player state. -/
def idleState : PlayerState :=
  ⟨⟨"", 0, true⟩, none, none, []⟩

/-- A session streaming item `a`, 12.5 seconds in, playing. -/
def streamingState : PlayerState :=
  ⟨⟨cacheKeyOf ("a"), (25 : Rat) / 2, false⟩, some 0, none, []⟩

/-- A session that has moved on to item `b` while the prefetch for `a`
was still in flight. -/
def movedOnState : PlayerState :=
  ⟨⟨cacheKeyOf ("b"), (25 : Rat) / 2, false⟩, some 1, none, []⟩

theorem setCachedAudio_always_ok (h : CacheHost) (key blob : String) :
    setCachedAudio h key blob = .ok () := by
  unfold setCachedAudio
  cases h.available <;> cases hO : h.openResult <;> cases hP : h.putResult <;> simp [hO, hP]

theorem tryBody_ok (h : CacheHost) (key blob : String) (o : AttemptOutcome)
    (ha : attemptOnce o = .ok blob) :
    tryBody h key o = .ok (mkBlobUrl blob) := by
  unfold tryBody
  simp [ha, setCachedAudio_always_ok]

theorem tryBody_error (h : CacheHost) (key : String) (o : AttemptOutcome) (e : JsError)
    (ha : attemptOnce o = .error e) :
    tryBody h key o = .error e := by
  unfold tryBody
  rw [ha]

theorem removeCachedAudio_always_ok (h : CacheHost) (key : String) :
    removeCachedAudio h key = .ok () := by
  unfold removeCachedAudio
  cases h.available <;> cases hO : h.openResult <;> cases hD : h.deleteResult <;> simp [hO, hD]

theorem clearAllCache_always_ok (h : CacheHost) :
    clearAllCache h = .ok () := by
  unfold clearAllCache
  cases h.available <;> cases hK : h.keysResult <;> cases hD : h.deleteCacheResult <;>
    simp [hK, hD]

theorem getCachedAudio_never_throws (h : CacheHost) (key : String) :
    ∃ v, getCachedAudio h key = .ok v := by
  unfold getCachedAudio
  cases h.available with
  | false => exact ⟨none, by simp⟩
  | true =>
    cases hO : h.openResult with
    | error e => exact ⟨none, by simp [hO]⟩
    | ok u =>
      cases hM : h.matchResult (cacheKeyOf key) with
      | error e => exact ⟨none, by simp [hO, hM]⟩
      | ok v =>
        cases v with
        | none => exact ⟨none, by simp [hO, hM]⟩
        | some blob => exact ⟨some (mkBlobUrl blob), by simp [hO, hM]⟩

theorem fetchLoop_result_ok (h : CacheHost) (key : String)
    (outcomes : Nat → AttemptOutcome) (l : List Nat) :
    ∃ r, (fetchLoop h key outcomes l).result = .ok r := by
  induction l with
  | nil => exact ⟨none, rfl⟩
  | cons a rest ih =>
    cases ht : tryBody h key (outcomes a) with
    | ok url => exact ⟨some url, by simp [fetchLoop, ht]⟩
    | error e =>
      cases rest with
      | nil => exact ⟨none, by simp [fetchLoop, ht]⟩
      | cons b rest2 =>
        obtain ⟨r, hr⟩ := ih
        exact ⟨r, by simpa [fetchLoop, ht] using hr⟩

theorem fetchLoop_all_fail (h : CacheHost) (key : String)
    (outcomes : Nat → AttemptOutcome) (l : List Nat)
    (hall : ∀ i, ∃ e, attemptOnce (outcomes i) = .error e) :
    (fetchLoop h key outcomes l).result = .ok none := by
  induction l with
  | nil => rfl
  | cons a rest ih =>
    obtain ⟨e, he⟩ := hall a
    have ht := tryBody_error h key (outcomes a) e he
    cases rest with
    | nil => simp [fetchLoop, ht]
    | cons b rest2 => simpa [fetchLoop, ht] using ih

/-- C2: the retry policy of `prefetchFullAudio` is priority-dependent:
`high` priority performs up to 2 retries (3 attempts total), waiting
`1000ms * 2 ^ i` before retry `i` (1000ms then 2000ms across the three
attempts) under a 30000ms per-attempt timeout, and a run whose first
two attempts fail but whose third succeeds resolves to the blob URL;
`low` priority performs no retry (1 attempt) under a 60000ms
per-attempt timeout, and a single failure resolves to `null` with no
further attempt. -/
theorem retry_policy_priority_dependent (h : CacheHost) (key : String)
    (outcomes : Nat → AttemptOutcome)
    (hmiss : getCachedAudio h key = .ok none)
    (e0 : JsError) (f0 : attemptOnce (outcomes 0) = .error e0) :
    maxRetries Priority.high = 2 ∧ timeoutMsOf Priority.high = 30000 ∧
    maxRetries Priority.low = 0 ∧ timeoutMsOf Priority.low = 60000 ∧
    (∀ e1 blob, attemptOnce (outcomes 1) = .error e1 →
      attemptOnce (outcomes 2) = .ok blob →
      prefetchRun h key outcomes Priority.high =
        ⟨.ok (some (mkBlobUrl blob)), [1000, 2000], 3⟩) ∧
    prefetchRun h key outcomes Priority.low = ⟨.ok none, [], 1⟩ := by
  have t0 := tryBody_error h key (outcomes 0) e0 f0
  refine ⟨rfl, rfl, rfl, rfl, ?_, ?_⟩
  · intro e1 blob h1 h2
    have t1 := tryBody_error h key (outcomes 1) e1 h1
    have t2 := tryBody_ok h key blob (outcomes 2) h2
    have hrange : List.range (maxRetries Priority.high + 1) = [0, 1, 2] := by decide
    unfold prefetchRun
    rw [hmiss, hrange]
    simp [fetchLoop, t0, t1, t2, baseDelay]
  · have hrange : List.range (maxRetries Priority.low + 1) = [0] := by decide
    unfold prefetchRun
    rw [hmiss, hrange]
    simp [fetchLoop, t0]

/-- Witness for C2 at a concrete run: cache absent, network failing
twice then delivering status 200 with blob `b`. -/
theorem retry_policy_priority_dependent_w :
    getCachedAudio bareHost ("k1") = .ok none ∧
    attemptOnce (demoOutcomes 0) = .error JsError.net ∧
    prefetchRun bareHost ("k1") demoOutcomes Priority.high =
      ⟨.ok (some (mkBlobUrl ("b"))), [1000, 2000], 3⟩ ∧
    prefetchRun bareHost ("k1") demoOutcomes Priority.low = ⟨.ok none, [], 1⟩ := by
  have hth := retry_policy_priority_dependent bareHost ("k1") demoOutcomes rfl
    JsError.net rfl
  exact ⟨rfl, rfl, hth.2.2.2.2.1 JsError.timeout ("b") rfl rfl, hth.2.2.2.2.2⟩

/-- C4 evaluation at the failing input: a high-priority prefetch whose
every fetch receives HTTP 404 is retried twice (3 attempts, with
1000ms and 2000ms backoff) before resolving to `null`, although the
hook's own documentation and the spec say 404 is not retried; at low
priority there is a single attempt. -/
theorem http404_retried_at_high_priority :
    prefetchRun bareHost ("song") (fun _ => AttemptOutcome.resp 404 ("b"))
      Priority.high = ⟨.ok none, [1000, 2000], 3⟩ ∧
    prefetchRun bareHost ("song") (fun _ => AttemptOutcome.resp 404 ("b"))
      Priority.low = ⟨.ok none, [], 1⟩ := by
  exact ⟨rfl, rfl⟩

/-- C7: the promise returned by `prefetchFullAudio`'s body never
rejects: its settled value is always `Except.ok` (a blob URL or
`null`), and when the cache misses and every attempt fails it settles
with `null` exactly. -/
theorem prefetch_failures_resolve_to_null (h : CacheHost) (key : String)
    (outcomes : Nat → AttemptOutcome) (p : Priority) :
    (∃ r, (prefetchRun h key outcomes p).result = .ok r) ∧
    (getCachedAudio h key = .ok none →
      (∀ i, ∃ e, attemptOnce (outcomes i) = .error e) →
      (prefetchRun h key outcomes p).result = .ok none) := by
  constructor
  · unfold prefetchRun
    obtain ⟨v, hv⟩ := getCachedAudio_never_throws h key
    rw [hv]
    cases v with
    | none => exact fetchLoop_result_ok h key outcomes _
    | some url => exact ⟨some url, rfl⟩
  · intro hmiss hall
    unfold prefetchRun
    rw [hmiss]
    exact fetchLoop_all_fail h key outcomes _ hall

/-- Witness for C7: cache facility absent, every attempt a network
failure. -/
theorem prefetch_failures_resolve_to_null_w :
    (∃ r, (prefetchRun bareHost ("x") (fun _ => AttemptOutcome.netFail)
      Priority.high).result = .ok r) ∧
    (prefetchRun bareHost ("x") (fun _ => AttemptOutcome.netFail)
      Priority.high).result = .ok none := by
  have hth := prefetch_failures_resolve_to_null bareHost ("x")
    (fun _ => AttemptOutcome.netFail) Priority.high
  exact ⟨hth.1, hth.2 rfl (fun _ => ⟨JsError.net, rfl⟩)⟩

/-- C8: when the host cache facility is unavailable or its operations
throw, `getCachedAudio` degrades to `null`, while `setCachedAudio`,
`removeCachedAudio` and `clearAllCache` complete as no-ops without
raising; and a failed cache write never fails an otherwise-successful
fetch attempt, which still returns its blob URL. -/
theorem cache_degrades_gracefully (h : CacheHost) (key blob : String) :
    (h.available = false → getCachedAudio h key = .ok none) ∧
    (∀ e, h.openResult = .error e → getCachedAudio h key = .ok none) ∧
    (∀ e, h.matchResult (cacheKeyOf key) = .error e →
      getCachedAudio h key = .ok none) ∧
    setCachedAudio h key blob = .ok () ∧
    removeCachedAudio h key = .ok () ∧
    clearAllCache h = .ok () ∧
    (∀ o b, attemptOnce o = .ok b → tryBody h key o = .ok (mkBlobUrl b)) := by
  refine ⟨?_, ?_, ?_, setCachedAudio_always_ok h key blob,
    removeCachedAudio_always_ok h key, clearAllCache_always_ok h,
    fun o b hb => tryBody_ok h key b o hb⟩
  · intro hA
    unfold getCachedAudio
    simp [hA]
  · intro e hO
    unfold getCachedAudio
    cases h.available <;> simp [hO]
  · intro e hM
    unfold getCachedAudio
    cases h.available <;> cases hO : h.openResult <;> simp [hO, hM]

/-- Witness for C8: a host without the facility and a host whose every
operation rejects. -/
theorem cache_degrades_gracefully_w :
    getCachedAudio bareHost ("x") = .ok none ∧
    getCachedAudio failingHost ("x") = .ok none ∧
    setCachedAudio failingHost ("x") ("b") = .ok () ∧
    removeCachedAudio failingHost ("x") = .ok () ∧
    clearAllCache failingHost = .ok () ∧
    tryBody failingHost ("x") (AttemptOutcome.resp 200 ("b")) =
      .ok (mkBlobUrl ("b")) := by
  refine ⟨(cache_degrades_gracefully bareHost ("x") ("b")).1 rfl,
    (cache_degrades_gracefully failingHost ("x") ("b")).2.1 JsError.hostError rfl,
    (cache_degrades_gracefully failingHost ("x") ("b")).2.2.2.1,
    (cache_degrades_gracefully failingHost ("x") ("b")).2.2.2.2.1,
    (cache_degrades_gracefully failingHost ("x") ("b")).2.2.2.2.2.1,
    (cache_degrades_gracefully failingHost ("x") ("b")).2.2.2.2.2.2
      (AttemptOutcome.resp 200 ("b")) ("b") rfl⟩

theorem reg_persists (es : List RegEvent) (s : RegState) (k : String) (o : Nat)
    (hnc : RegEvent.clear ∉ es)
    (h : lookupReg s.registry k = some o) :
    lookupReg (runReg s es).1.registry k = some o ∧
    (∀ o2, (k, o2) ∈ (runReg s es).2 → o2 = o) ∧
    (runReg s es).1.created.filter (fun p => p.1 = k) =
      s.created.filter (fun p => p.1 = k) := by
  induction es generalizing s with
  | nil => exact ⟨h, by simp [runReg], rfl⟩
  | cons e es ih =>
    have hnc2 : RegEvent.clear ∉ es := fun hm => hnc (List.mem_cons_of_mem _ hm)
    cases e with
    | clear => exact absurd (List.mem_cons_self _ _) hnc
    | settle o3 r =>
      obtain ⟨h1, h2, h3⟩ := ih (regStep s (RegEvent.settle o3 r)).1 hnc2 h
      exact ⟨h1, fun o2 ho2 => h2 o2 (by simpa [runReg, regStep] using ho2), h3⟩
    | call k2 =>
      by_cases hk : k2 = k
      · subst hk
        have hstep : regStep s (RegEvent.call k2) = (s, [(k2, o)]) := by
          simp [regStep, h]
        obtain ⟨h1, h2, h3⟩ := ih s hnc2 h
        refine ⟨by simpa [runReg, hstep] using h1, ?_, by simpa [runReg, hstep] using h3⟩
        intro o2 ho2
        rw [show (runReg s (RegEvent.call k2 :: es)).2 =
          (k2, o) :: (runReg s es).2 by simp [runReg, hstep]] at ho2
        rcases List.mem_cons.mp ho2 with he | he
        · exact congrArg Prod.snd he
        · exact h2 o2 he
      · cases hl : lookupReg s.registry k2 with
        | some o3 =>
          have hstep : regStep s (RegEvent.call k2) = (s, [(k2, o3)]) := by
            simp [regStep, hl]
          obtain ⟨h1, h2, h3⟩ := ih s hnc2 h
          refine ⟨by simpa [runReg, hstep] using h1, ?_,
            by simpa [runReg, hstep] using h3⟩
          intro o2 ho2
          rw [show (runReg s (RegEvent.call k2 :: es)).2 =
            (k2, o3) :: (runReg s es).2 by simp [runReg, hstep]] at ho2
          rcases List.mem_cons.mp ho2 with he | he
          · exact absurd (congrArg Prod.fst he).symm hk
          · exact h2 o2 he
        | none =>
          set s2 : RegState :=
            { registry := (k2, s.nextOp) :: s.registry, nextOp := s.nextOp + 1,
              created := (k2, s.nextOp) :: s.created } with hs2
          have hstep : regStep s (RegEvent.call k2) = (s2, [(k2, s.nextOp)]) := by
            simp [regStep, hl, hs2]
          have h2lo : lookupReg s2.registry k = some o := by
            simp [hs2, lookupReg, hk, h]
          obtain ⟨h1, h2, h3⟩ := ih s2 hnc2 h2lo
          have hcre2 : s2.created.filter (fun p => p.1 = k) =
              s.created.filter (fun p => p.1 = k) := by
            simp [hs2, List.filter_cons, hk]
          refine ⟨by simpa [runReg, hstep] using h1, ?_, ?_⟩
          · intro o2 ho2
            rw [show (runReg s (RegEvent.call k2 :: es)).2 =
              (k2, s.nextOp) :: (runReg s2 es).2 by simp [runReg, hstep]] at ho2
            rcases List.mem_cons.mp ho2 with he | he
            · exact absurd (congrArg Prod.fst he).symm hk
            · exact h2 o2 he
          · rw [show (runReg s (RegEvent.call k2 :: es)).1 = (runReg s2 es).1 by
              simp [runReg, hstep]]
            exact h3.trans hcre2

theorem call_in_log (es : List RegEvent) (s : RegState) (k : String)
    (hcall : RegEvent.call k ∈ es) :
    ∃ o2, (k, o2) ∈ (runReg s es).2 := by
  induction es generalizing s with
  | nil => cases hcall
  | cons e es ih =>
    rcases List.mem_cons.mp hcall with he | he
    · cases he
      cases hl : lookupReg s.registry k with
      | some o => exact ⟨o, by simp [runReg, regStep, hl]⟩
      | none => exact ⟨s.nextOp, by simp [runReg, regStep, hl]⟩
    · obtain ⟨o2, ho2⟩ := ih (regStep s e).1 he
      refine ⟨o2, ?_⟩
      rw [show (runReg s (e :: es)).2 =
        (regStep s e).2 ++ (runReg (regStep s e).1 es).2 by simp [runReg]]
      exact List.mem_append_right _ ho2

theorem reg_dedup_main (es : List RegEvent) (s : RegState) (k : String)
    (hnc : RegEvent.clear ∉ es)
    (habs : lookupReg s.registry k = none)
    (hcre : s.created.filter (fun p => p.1 = k) = []) :
    ((∀ o2, (k, o2) ∉ (runReg s es).2) ∧
      (runReg s es).1.created.filter (fun p => p.1 = k) = [] ∧
      lookupReg (runReg s es).1.registry k = none) ∨
    (∃ o, (runReg s es).1.created.filter (fun p => p.1 = k) = [(k, o)] ∧
      (∀ o2, (k, o2) ∈ (runReg s es).2 → o2 = o)) := by
  induction es generalizing s with
  | nil => exact Or.inl ⟨by simp [runReg], hcre, habs⟩
  | cons e es ih =>
    have hnc2 : RegEvent.clear ∉ es := fun hm => hnc (List.mem_cons_of_mem _ hm)
    cases e with
    | clear => exact absurd (List.mem_cons_self _ _) hnc
    | settle o3 r =>
      have hred1 : (runReg s (RegEvent.settle o3 r :: es)).1 = (runReg s es).1 := by
        simp [runReg, regStep]
      have hred2 : (runReg s (RegEvent.settle o3 r :: es)).2 = (runReg s es).2 := by
        simp [runReg, regStep]
      rw [hred1, hred2]
      exact ih s hnc2 habs hcre
    | call k2 =>
      by_cases hk : k2 = k
      · subst hk
        set s2 : RegState :=
          { registry := (k2, s.nextOp) :: s.registry, nextOp := s.nextOp + 1,
            created := (k2, s.nextOp) :: s.created } with hs2
        have hstep : regStep s (RegEvent.call k2) = (s2, [(k2, s.nextOp)]) := by
          simp [regStep, habs, hs2]
        have h2lo : lookupReg s2.registry k2 = some s.nextOp := by
          simp [hs2, lookupReg]
        obtain ⟨h1, h2, h3⟩ := reg_persists es s2 k2 s.nextOp hnc2 h2lo
        refine Or.inr ⟨s.nextOp, ?_, ?_⟩
        · rw [show (runReg s (RegEvent.call k2 :: es)).1 = (runReg s2 es).1 by
            simp [runReg, hstep]]
          rw [h3]
          simp [hs2, List.filter_cons, hcre]
        · intro o2 ho2
          rw [show (runReg s (RegEvent.call k2 :: es)).2 =
            (k2, s.nextOp) :: (runReg s2 es).2 by simp [runReg, hstep]] at ho2
          rcases List.mem_cons.mp ho2 with he | he
          · exact congrArg Prod.snd he
          · exact h2 o2 he
      · cases hl : lookupReg s.registry k2 with
        | some o3 =>
          have hstep : regStep s (RegEvent.call k2) = (s, [(k2, o3)]) := by
            simp [regStep, hl]
          have hred1 : (runReg s (RegEvent.call k2 :: es)).1 = (runReg s es).1 := by
            simp [runReg, hstep]
          have hred2 : (runReg s (RegEvent.call k2 :: es)).2 =
              (k2, o3) :: (runReg s es).2 := by
            simp [runReg, hstep]
          rcases ih s hnc2 habs hcre with ⟨h1, h2, h3⟩ | ⟨o, h1, h2⟩
          · refine Or.inl ⟨?_, by rwa [hred1], by rwa [hred1]⟩
            intro o2 ho2
            rw [hred2] at ho2
            rcases List.mem_cons.mp ho2 with he | he
            · exact absurd (congrArg Prod.fst he).symm hk
            · exact h1 o2 he
          · refine Or.inr ⟨o, by rwa [hred1], ?_⟩
            intro o2 ho2
            rw [hred2] at ho2
            rcases List.mem_cons.mp ho2 with he | he
            · exact absurd (congrArg Prod.fst he).symm hk
            · exact h2 o2 he
        | none =>
          set s2 : RegState :=
            { registry := (k2, s.nextOp) :: s.registry, nextOp := s.nextOp + 1,
              created := (k2, s.nextOp) :: s.created } with hs2
          have hstep : regStep s (RegEvent.call k2) = (s2, [(k2, s.nextOp)]) := by
            simp [regStep, hl, hs2]
          have habs2 : lookupReg s2.registry k = none := by
            simp [hs2, lookupReg, hk, habs]
          have hcre2 : s2.created.filter (fun p => p.1 = k) = [] := by
            simp [hs2, List.filter_cons, hk, hcre]
          have hred1 : (runReg s (RegEvent.call k2 :: es)).1 = (runReg s2 es).1 := by
            simp [runReg, hstep]
          have hred2 : (runReg s (RegEvent.call k2 :: es)).2 =
              (k2, s.nextOp) :: (runReg s2 es).2 := by
            simp [runReg, hstep]
          rcases ih s2 hnc2 habs2 hcre2 with ⟨h1, h2, h3⟩ | ⟨o, h1, h2⟩
          · refine Or.inl ⟨?_, by rwa [hred1], by rwa [hred1]⟩
            intro o2 ho2
            rw [hred2] at ho2
            rcases List.mem_cons.mp ho2 with he | he
            · exact absurd (congrArg Prod.fst he).symm hk
            · exact h1 o2 he
          · refine Or.inr ⟨o, by rwa [hred1], ?_⟩
            intro o2 ho2
            rw [hred2] at ho2
            rcases List.mem_cons.mp ho2 with he | he
            · exact absurd (congrArg Prod.fst he).symm hk
            · exact h2 o2 he

/-- C1: along any event-loop trace without a `clearPrefetchCache` in
which identifier `k` is requested at least once, exactly one
fetch-chain promise is created for `k` — every caller of `k` gets the
same promise, because the duplicate check and the `Map.set` run in the
same synchronous turn, before any suspension point — so all concurrent
callers resolve to that one promise's result. -/
theorem concurrent_calls_dedup (es : List RegEvent) (k : String)
    (hnc : RegEvent.clear ∉ es)
    (hcall : RegEvent.call k ∈ es) :
    createdFor es k = 1 ∧
    (∀ o1 o2, (k, o1) ∈ callLog es → (k, o2) ∈ callLog es → o1 = o2) := by
  obtain ⟨o2, ho2⟩ := call_in_log es initReg k hcall
  rcases reg_dedup_main es initReg k hnc rfl rfl with ⟨h1, _, _⟩ | ⟨o, h1, h2⟩
  · exact absurd ho2 (h1 o2)
  · refine ⟨by simp [createdFor, h1], ?_⟩
    intro o1 o3 ho1 ho3
    rw [h2 o1 ho1, h2 o3 ho3]

/-- Witness for C1: the three-caller trace `call a, call b, call a`
with no settlement, evaluated concretely. -/
theorem concurrent_calls_dedup_w :
    RegEvent.clear ∉ demoTrace ∧ RegEvent.call ("a") ∈ demoTrace ∧
    createdFor demoTrace ("a") = 1 := by
  have hth := concurrent_calls_dedup demoTrace ("a") (by decide) (by decide)
  exact ⟨by decide, by decide, hth.1⟩

/-- C3 counterexample: after the promise for `a` (promise 0) settles
with `null`, a later call for `a` is answered with the same settled
promise 0 and no second fetch chain is ever created — the registry
keeps consulting the settled entry, contradicting the claim that a
fresh call after settlement creates and runs a new fetch. -/
theorem settled_entry_reused_cex :
    createdFor settledTrace ("a") = 1 ∧
    callLog settledTrace = [(("a"), 0), (("a"), 0)] := by
  exact ⟨by decide, by decide⟩

/-- C3 amended: settlement does not end the registry's association for
new callers — a call for an identifier mapped to promise `o` returns
`o` unchanged and creates nothing, settling mutates the registry not
at all, and only `clearPrefetchCache` removes entries, after which a
fresh call allocates a new fetch-chain promise. -/
theorem settled_entry_persists (s : RegState) (k : String) (o : Nat)
    (h : lookupReg s.registry k = some o) :
    regStep s (RegEvent.call k) = (s, [(k, o)]) ∧
    (∀ r, regStep s (RegEvent.settle o r) = (s, [])) ∧
    lookupReg (regStep s RegEvent.clear).1.registry k = none ∧
    (regStep (regStep s RegEvent.clear).1 (RegEvent.call k)).1.created =
      (k, s.nextOp) :: s.created := by
  refine ⟨by simp [regStep, h], fun r => rfl, rfl, ?_⟩
  simp [regStep, lookupReg]

/-- Witness for C3's amended statement, at the concrete state reached
after `a`'s promise settled with `null`. -/
theorem settled_entry_persists_w :
    lookupReg settledState.registry ("a") = some 0 ∧
    regStep settledState (RegEvent.call ("a")) = (settledState, [(("a"), 0)]) := by
  have hth := settled_entry_persists settledState ("a") 0 (by decide)
  exact ⟨by decide, hth.1⟩

theorem findIndex_some (p : Track → Bool) (l : List Track) (j : Nat)
    (h : findIndex p l = some j) :
    ∃ hj : j < l.length, p (l.get ⟨j, hj⟩) = true := by
  induction l generalizing j with
  | nil => cases h
  | cons t ts ih =>
    by_cases hp : p t
    · rw [findIndex, if_pos hp] at h
      cases h
      exact ⟨Nat.succ_pos _, hp⟩
    · rw [findIndex, if_neg hp] at h
      cases hf : findIndex p ts with
      | none => rw [hf] at h; cases h
      | some i =>
        rw [hf] at h
        obtain ⟨hi, hpi⟩ := ih i hf
        cases h
        exact ⟨Nat.succ_lt_succ hi, hpi⟩

theorem findIndex_none (p : Track → Bool) (l : List Track)
    (h : findIndex p l = none) : ∀ t ∈ l, p t = false := by
  induction l with
  | nil => intro t ht; cases ht
  | cons t ts ih =>
    by_cases hp : p t
    · rw [findIndex, if_pos hp] at h
      cases h
    · rw [findIndex, if_neg hp] at h
      intro t2 ht2
      rcases List.mem_cons.mp ht2 with he | he
      · subst he
        cases hpt : p t2 with
        | false => rfl
        | true => exact absurd hpt hp
      · cases hm : findIndex p ts with
        | none => exact ih hm t2 he
        | some i => rw [hm] at h; cases h

theorem resolveInFiltered_spec (filtered : List Track) (t : Track) :
    resolvesProperly filtered t (resolveInFiltered filtered t) := by
  unfold resolveInFiltered
  cases hf : findIndex (fun t2 => t2.key == t.key) filtered with
  | some i =>
    obtain ⟨hi, hpi⟩ := findIndex_some _ _ _ hf
    exact Or.inl ⟨hi, by simpa using hpi⟩
  | none =>
    refine Or.inr ⟨rfl, ?_⟩
    intro t2 ht2
    have hf2 := findIndex_none _ _ hf t2 ht2
    simpa using hf2

theorem swapAudioSource_spec (audio : AudioEl) (newUrl : String) (resumeTime : Rat) :
    (swapAudioSource audio newUrl resumeTime).currentTime = resumeTime ∧
    (swapAudioSource audio newUrl resumeTime).paused = audio.paused ∧
    (swapAudioSource audio newUrl resumeTime).src = newUrl := by
  unfold swapAudioSource
  cases hp : audio.paused <;> simp [hp]

/-- C6: whenever the controller swaps the active source to a newly
available cached blob URL — in the within-deadline step or the late
one — while the element still plays the address the prefetch was
started for, the playback position and the play/pause flag after the
swap equal those immediately before it, and the active source becomes
the blob URL. -/
theorem swap_preserves_position_and_state (st : PlayerState) (audioUrl u : String)
    (hsrc : st.audio.src = audioUrl) :
    ((earlySwapStep st audioUrl (some u)).audio.currentTime = st.audio.currentTime ∧
     (earlySwapStep st audioUrl (some u)).audio.paused = st.audio.paused ∧
     (earlySwapStep st audioUrl (some u)).audio.src = u) ∧
    ((lateArrivalStep st audioUrl (some u)).audio.currentTime = st.audio.currentTime ∧
     (lateArrivalStep st audioUrl (some u)).audio.paused = st.audio.paused ∧
     (lateArrivalStep st audioUrl (some u)).audio.src = u) := by
  have h1 : earlySwapStep st audioUrl (some u) =
      { audio := swapAudioSource st.audio u st.audio.currentTime
        currentTrackIndex := st.currentTrackIndex
        currentBlobUrl := some u
        revoked := revokeBlobUrl st.currentBlobUrl st.revoked } := by
    simp [earlySwapStep, hsrc]
  have h2 : lateArrivalStep st audioUrl (some u) =
      { audio := swapAudioSource st.audio u st.audio.currentTime
        currentTrackIndex := st.currentTrackIndex
        currentBlobUrl := some u
        revoked := revokeBlobUrl st.currentBlobUrl st.revoked } := by
    simp [lateArrivalStep, hsrc]
  obtain ⟨ha, hb, hc⟩ := swapAudioSource_spec st.audio u st.audio.currentTime
  rw [h1, h2]
  exact ⟨⟨ha, hb, hc⟩, ⟨ha, hb, hc⟩⟩

/-- Witness for C6 at a session streaming `a`, 12.5 seconds in. -/
theorem swap_preserves_position_and_state_w :
    streamingState.audio.src = cacheKeyOf ("a") ∧
    (earlySwapStep streamingState (cacheKeyOf ("a"))
      (some ("blob:a"))).audio.currentTime = streamingState.audio.currentTime ∧
    (lateArrivalStep streamingState (cacheKeyOf ("a"))
      (some ("blob:a"))).audio.paused = streamingState.audio.paused := by
  have hth := swap_preserves_position_and_state streamingState (cacheKeyOf ("a"))
    ("blob:a") rfl
  exact ⟨rfl, hth.1.1, hth.2.2.1⟩

/-- C5 counterexample: the session has moved to `b` when the late
prefetch result for `a` arrives; the swap is indeed skipped — the
player state is unchanged — but the arriving blob handle is NOT
revoked: it never enters the revocation ledger, contradicting the
claim that the handle is released rather than leaked. -/
theorem stale_late_result_not_revoked_cex :
    lateArrivalStep movedOnState (cacheKeyOf ("a")) (some ("blob:a")) = movedOnState ∧
    ("blob:a") ∉ (lateArrivalStep movedOnState (cacheKeyOf ("a"))
      (some ("blob:a"))).revoked := by
  exact ⟨rfl, by decide⟩

/-- C5 amended: a late prefetch result arriving when the session's
active source is no longer the address the prefetch was started for
causes no swap, and the handle it produced is NOT released — the
player state, the revocation ledger included, is left entirely
unchanged, so the blob URL leaks. -/
theorem stale_late_result_discarded_unrevoked (st : PlayerState)
    (audioUrl u : String) (hstale : st.audio.src ≠ audioUrl) :
    lateArrivalStep st audioUrl (some u) = st := by
  simp [lateArrivalStep, hstale]

/-- Witness for C5's amended statement at the moved-on session. -/
theorem stale_late_result_discarded_unrevoked_w :
    movedOnState.audio.src ≠ cacheKeyOf ("a") ∧
    lateArrivalStep movedOnState (cacheKeyOf ("a")) (some ("blob:x")) =
      movedOnState := by
  exact ⟨by decide, stale_late_result_discarded_unrevoked movedOnState
    (cacheKeyOf ("a")) ("blob:x") (by decide)⟩

/-- C9: with shuffle disabled and current full-list index `i` in an
`n`-track list, end-of-item advances to full-list index `(i + 1) % n`
and plays that track at its filtered-view position, falling back to
position 0 when it is filtered out (on the 3-track demo list, index 1
advances to 2 and index 2 wraps to 0); with shuffle enabled the draw
ranges over the FULL list — every `r < n` selects `tracks[r]` —
resolved in the filtered view with the same fallback. -/
theorem end_of_item_advance (tracks filtered : List Track) (i r : Nat)
    (hi : i < tracks.length) (hr : r < tracks.length) :
    (∀ nt, tracks.get? ((i + 1) % tracks.length) = some nt →
      playNextIndex tracks filtered false (some i) r =
        some (resolveInFiltered filtered nt) ∧
      resolvesProperly filtered nt (resolveInFiltered filtered nt)) ∧
    (∀ rt, tracks.get? r = some rt →
      playNextIndex tracks filtered true (some i) r =
        some (resolveInFiltered filtered rt) ∧
      resolvesProperly filtered rt (resolveInFiltered filtered rt)) ∧
    playNextIndex demoTracks demoTracks false (some 1) 0 = some 2 ∧
    playNextIndex demoTracks demoTracks false (some 2) 0 = some 0 := by
  have hn : tracks.length ≠ 0 :=
    Nat.pos_iff_ne_zero.mp (lt_of_le_of_lt (Nat.zero_le i) hi)
  refine ⟨?_, ?_, by decide, by decide⟩
  · intro nt hnt
    rw [List.get?_eq_getElem?] at hnt
    exact ⟨by simp [playNextIndex, hn, hnt], resolveInFiltered_spec filtered nt⟩
  · intro rt hrt
    rw [List.get?_eq_getElem?] at hrt
    exact ⟨by simp [playNextIndex, hn, hrt], resolveInFiltered_spec filtered rt⟩

/-- Witness for C9 on the demo list: advancing from index 1 lands on
index 2. -/
theorem end_of_item_advance_w :
    1 < demoTracks.length ∧ 0 < demoTracks.length ∧
    playNextIndex demoTracks demoTracks false (some 1) 0 = some 2 := by
  have hth := end_of_item_advance demoTracks demoTracks 1 0 (by decide) (by decide)
  exact ⟨by decide, by decide, hth.2.2.1⟩

/-- C10: `playTrack` with an index holding no track in the filtered
view returns with the player state unchanged and no effect issued (no
index change, no playback, no cache read, no prefetch); `playNext`
with an empty full track list likewise does nothing. -/
theorem missing_track_is_noop (tracks filtered : List Track) (index : Nat)
    (env : PlayEnv) (st : PlayerState) (randomMode : Bool) (ci : Option Nat)
    (r : Nat) :
    (filtered.get? index = none → playTrack tracks filtered index env st = (st, [])) ∧
    (tracks = [] → playNext tracks filtered randomMode ci r env st = (st, [])) := by
  constructor
  · intro hidx
    unfold playTrack
    rw [hidx]
  · intro ht
    subst ht
    unfold playNext playNextIndex
    simp

/-- Witness for C10 with empty lists and a quiescent player. -/
theorem missing_track_is_noop_w :
    (([] : List Track).get? 0 = none) ∧
    playTrack [] [] 0 idleEnv idleState = (idleState, []) ∧
    playNext [] [] false none 0 idleEnv idleState = (idleState, []) := by
  have hth := missing_track_is_noop [] [] 0 idleEnv idleState false none 0
  exact ⟨rfl, hth.1 rfl, hth.2 rfl⟩

end MusicShuttle
